import Mathlib

/-!
Verification development for the resumable batch-processing script
`ai_model_processor.py`.  Python functions are shallowly embedded as
executable Lean definitions; Python strings are Lean `String`s (lists of
characters), pandas cell values are `Option String` (`none` models
`NaN`/absent), and the JSON values handled by `json.loads`/`json.dumps`
are modelled by the inductive type `AMP.Json`.
-/

namespace AMP

/-- Characters stripped by Python `str.strip()` on the ASCII inputs the
script handles (space, tab, newline, carriage return, vertical tab,
form feed). -/
def isPySpace (c : Char) : Bool :=
  c = ' ' || c = '\t' || c = '\n' || c = '\r' || c = '\x0b' || c = '\x0c'

/-- Python `str.strip()` on a character list: drop whitespace from both
ends. -/
def stripChars (l : List Char) : List Char :=
  ((l.dropWhile isPySpace).reverse.dropWhile isPySpace).reverse

/-- Python `str.strip()`. -/
def pyStrip (s : String) : String := ⟨stripChars s.data⟩

/-- Boolean test that `p` is an initial segment of `l`. -/
def leadsWith : List Char → List Char → Bool
  | [], _ => true
  | _ :: _, [] => false
  | p :: ps, c :: cs => p = c && leadsWith ps cs

/-- Index (relative to the start of `l`, offset by `i`) of the first
occurrence of `pat` in `l`; `none` when absent.  Models Python
`str.find` (which returns `-1` for absence). -/
def findSubAux (pat : List Char) : List Char → Nat → Option Nat
  | [], i => if pat.isEmpty then some i else none
  | c :: rest, i =>
      if leadsWith pat (c :: rest) then some i else findSubAux pat rest (i + 1)

/-- Python `s.find(pat)` (with `none` for `-1`). -/
def strFind (s pat : String) : Option Nat := findSubAux pat.data s.data 0

/-- Python `s.find(pat, start)` (with `none` for `-1`). -/
def strFindFrom (s pat : String) (start : Nat) : Option Nat :=
  (findSubAux pat.data (s.data.drop start) 0).map (· + start)

/-- Python slice `s[a:b]` for `a ≤ b`. -/
def strSlice (s : String) (a b : Nat) : String := ⟨(s.data.drop a).take (b - a)⟩

/-- Python `s.startswith(c)` for a single character. -/
def headIs (s : String) (c : Char) : Bool :=
  match s.data with
  | [] => false
  | d :: _ => d = c

/-- Python `s.endswith(c)` for a single character. -/
def lastIs (s : String) (c : Char) : Bool :=
  match s.data.getLast? with
  | some d => d = c
  | none => false

/-- Helper for `strRevFind`: index of the last occurrence of `c`. -/
def rfindAux (c : Char) : List Char → Nat → Option Nat → Option Nat
  | [], _, best => best
  | d :: rest, i, best => rfindAux c rest (i + 1) (if d = c then some i else best)

/-- Python `s.rfind(c)` for a single character (with `none` for `-1`). -/
def strRevFind (s : String) (c : Char) : Option Nat := rfindAux c s.data 0 none

/-- Skip JSON/Python whitespace. -/
def skipWs (l : List Char) : List Char := l.dropWhile isPySpace

/-- Numeric value of a list of decimal digits. -/
def digitsToNat (ds : List Char) : Nat :=
  ds.foldl (fun n c => n * 10 + (c.toNat - '0'.toNat)) 0

/-- JSON values as produced by Python `json.loads` (integral numbers
only; the script's data contains no floats). -/
inductive Json where
  | null : Json
  | bool : Bool → Json
  | num : Int → Json
  | str : String → Json
  | arr : List Json → Json
  | obj : List (String × Json) → Json

/-- Python truthiness of a parsed JSON value, as tested by
`if result:` in `process_single_row`. -/
def truthy : Json → Bool
  | .null => false
  | .bool b => b
  | .num n => n != 0
  | .str s => s != ""
  | .arr xs => !xs.isEmpty
  | .obj kvs => !kvs.isEmpty

/-- Decimal digits of `n`, most significant first (fuelled so that the
definition is structurally recursive and kernel-reducible). -/
def natReprAux : Nat → Nat → List Char
  | 0, _ => []
  | fuel + 1, n =>
      if n < 10 then [Nat.digitChar n]
      else natReprAux fuel (n / 10) ++ [Nat.digitChar (n % 10)]

/-- Decimal representation of a natural number. -/
def natRepr (n : Nat) : String := ⟨natReprAux (n + 1) n⟩

/-- Decimal representation of an integer, as printed by Python. -/
def intRepr (n : Int) : String :=
  if n < 0 then "-" ++ natRepr n.natAbs else natRepr n.natAbs

mutual

/-- Python `json.dumps(value, ensure_ascii=False)` on the modelled JSON
fragment (default separators; no escaping is modelled, matching the
plain-text content the script serializes). -/
def jsonDumps : Json → String
  | .null => "null"
  | .bool b => if b then "true" else "false"
  | .num n => intRepr n
  | .str s => "\"" ++ s ++ "\""
  | .arr xs => "[" ++ jsonDumpsSeq xs ++ "]"
  | .obj kvs => "\x7b" ++ jsonDumpsMembers kvs ++ "\x7d"

/-- Comma-separated serialization of array elements. -/
def jsonDumpsSeq : List Json → String
  | [] => ""
  | [x] => jsonDumps x
  | x :: y :: rest => jsonDumps x ++ ", " ++ jsonDumpsSeq (y :: rest)

/-- Comma-separated serialization of object members. -/
def jsonDumpsMembers : List (String × Json) → String
  | [] => ""
  | [kv] => "\"" ++ kv.1 ++ "\": " ++ jsonDumps kv.2
  | kv :: kv2 :: rest =>
      "\"" ++ kv.1 ++ "\": " ++ jsonDumps kv.2 ++ ", " ++ jsonDumpsMembers (kv2 :: rest)

end

/-- String-body scanner for the JSON parser: characters up to the next
unescaped quote (escape sequences are not modelled; the inputs handled
here contain none). -/
def parseJsonStrAux : List Char → Option (List Char × List Char)
  | [] => none
  | c :: rest =>
      if c = '"' then some ([], rest)
      else (parseJsonStrAux rest).map (fun p => (c :: p.1, p.2))

mutual

/-- Fuelled recursive-descent model of Python `json.loads` on the
fragment the script exchanges: `null`, booleans, integers, strings
without escapes, arrays and objects. -/
def parseJsonVal : Nat → List Char → Option (Json × List Char)
  | 0, _ => none
  | fuel + 1, l =>
      match skipWs l with
      | [] => none
      | c :: rest =>
          if c = 'n' then
            if leadsWith "null".data (c :: rest) then some (.null, (c :: rest).drop 4) else none
          else if c = 't' then
            if leadsWith "true".data (c :: rest) then some (.bool true, (c :: rest).drop 4) else none
          else if c = 'f' then
            if leadsWith "false".data (c :: rest) then some (.bool false, (c :: rest).drop 5) else none
          else if c = '"' then
            (parseJsonStrAux rest).map (fun p => (.str ⟨p.1⟩, p.2))
          else if c = '-' then
            let ds := rest.takeWhile Char.isDigit
            if ds.isEmpty then none
            else some (.num (-(digitsToNat ds : Int)), rest.drop ds.length)
          else if c.isDigit then
            let ds := (c :: rest).takeWhile Char.isDigit
            some (.num (digitsToNat ds : Int), (c :: rest).drop ds.length)
          else if c = '[' then
            match skipWs rest with
            | ']' :: r2 => some (.arr [], r2)
            | _ => (parseJsonItems fuel rest).map (fun p => (.arr p.1, p.2))
          else if c = '\x7b' then
            match skipWs rest with
            | '\x7d' :: r2 => some (.obj [], r2)
            | _ => (parseJsonMembers fuel rest).map (fun p => (.obj p.1, p.2))
          else none

/-- Parse `value (, value)* ]` for a non-empty array body. -/
def parseJsonItems : Nat → List Char → Option (List Json × List Char)
  | 0, _ => none
  | fuel + 1, l =>
      match parseJsonVal fuel l with
      | none => none
      | some (j, r) =>
          match skipWs r with
          | ',' :: r2 => (parseJsonItems fuel r2).map (fun p => (j :: p.1, p.2))
          | ']' :: r2 => some ([j], r2)
          | _ => none

/-- Parse `"key": value (, "key": value)* }` for a non-empty object
body. -/
def parseJsonMembers : Nat → List Char → Option (List (String × Json) × List Char)
  | 0, _ => none
  | fuel + 1, l =>
      match skipWs l with
      | '"' :: r =>
          match parseJsonStrAux r with
          | none => none
          | some (k, r2) =>
              match skipWs r2 with
              | ':' :: r3 =>
                  match parseJsonVal fuel r3 with
                  | none => none
                  | some (v, r4) =>
                      match skipWs r4 with
                      | ',' :: r5 =>
                          (parseJsonMembers fuel r5).map
                            (fun p => ((⟨k⟩, v) :: p.1, p.2))
                      | '\x7d' :: r5 => some ([(⟨k⟩, v)], r5)
                      | _ => none
              | _ => none
      | _ => none

end

/-- Model of Python `json.loads` used where the script parses response
text: parse one value, require only whitespace after it, `none` models
a raised `json.JSONDecodeError`. -/
def miniLoads (s : String) : Option Json :=
  match parseJsonVal (s.data.length + 8) s.data with
  | some (j, rest) => if (skipWs rest).isEmpty then some j else none
  | none => none

/-- The shared DataFrame, restricted to what the claims observe: whether
the response column exists and, per row (positional index), the value of
that column (`none` models `NaN`/absent). -/
structure Table where
  hasCol : Bool
  vals : List (Option String)
deriving DecidableEq

/-- `AIModelProcessor.check_row_processed` (ai_model_processor.py
391-397): a row is processed iff the response column exists and its
value is neither `NaN` nor, after `strip()`, the empty string. -/
def check_row_processed (t : Table) (index : Nat) : Bool :=
  if t.hasCol then
    match t.vals.getD index none with
    | none => false
    | some s => pyStrip s != ""
  else false

/-- Pending-row scan of `process_file` (ai_model_processor.py
1063-1081): iterate rows in order, keeping the indices whose row is not
yet processed. -/
def pending (t : Table) : List Nat :=
  (List.range t.vals.length).filter (fun i => ! check_row_processed t i)

/-- `df.at[index, response_col] = value` (a write under `csv_lock`). -/
def writeCell (t : Table) (index : Nat) (value : String) : Table :=
  { t with vals := t.vals.set index (some value) }

/-- A sequence of row-result writes applied in order. -/
def applyWrites (t : Table) (ws : List (Nat × String)) : Table :=
  ws.foldl (fun acc w => writeCell acc w.1 w.2) t

/-- `model_name.replace("-", "_").replace(".", "_")`
(ai_model_processor.py 1037). -/
def model_name_safe (model : String) : String :=
  ⟨model.data.map (fun c => if c = '-' ∨ c = '.' then '_' else c)⟩

/-- Synthesized result-column name `f"ai_response_{model_name_safe}"`
(ai_model_processor.py 1038 and 564-565). -/
def response_col (model : String) : String :=
  "ai_response_" ++ model_name_safe model

/-- `AIModelProcessor.process_single_row` (ai_model_processor.py
964-983), with the remote call's parsed outcome supplied as `apiResult`
(`none` models a `None` return or a caught exception): on a truthy
result the serialized response is written to the row's cell under the
lock and `True` is returned, otherwise the table is untouched and
`False` is returned. -/
def process_single_row (t : Table) (index : Nat) (apiResult : Option Json) :
    Table × Bool :=
  match apiResult with
  | some r => if truthy r then (writeCell t index (jsonDumps r), true) else (t, false)
  | none => (t, false)

/-- The dispatch loop of `process_file`: every submitted task is
processed; a failed task leaves the table as it was. -/
def runBatch (t : Table) (tasks : List (Nat × Option Json)) : Table :=
  tasks.foldl (fun acc task => (process_single_row acc task.1 task.2).1) t

/-- One completion event of the `as_completed` loop
(ai_model_processor.py 1106-1120).  State: (completions so far,
`new_processed_count`, positions of mid-run snapshot writes, 1-based by
completion order).  The `% 10` check runs on every completion, after
the conditional increment. -/
def sched_step (st : Nat × Nat × List Nat) (success : Bool) : Nat × Nat × List Nat :=
  let pos := st.1 + 1
  let count := if success then st.2.1 + 1 else st.2.1
  let snaps := if count % 10 = 0 then st.2.2 ++ [pos] else st.2.2
  (pos, count, snaps)

/-- The completion loop of `process_file` over the outcome (success
flag) of each task, in completion order. -/
def process_file_run (outcomes : List Bool) : Nat × Nat × List Nat :=
  outcomes.foldl sched_step (0, 0, [])

/-- Completion positions at which the loop body triggered a snapshot
write (`save_output_file` under `csv_lock`). -/
def mid_snapshots (outcomes : List Bool) : List Nat := (process_file_run outcomes).2.2

/-- All snapshot positions of a run: the mid-run ones plus the
unconditional final save (ai_model_processor.py 1122-1123), recorded at
position `length + 1`. -/
def all_snapshots (outcomes : List Bool) : List Nat :=
  mid_snapshots outcomes ++ [outcomes.length + 1]

/-- Modelled from the spec: snapshot positions as claim C3 states them —
exactly the successful completions at which the cumulative success
count is a (positive) multiple of 10. -/
def spec_mid_snapshots (outcomes : List Bool) : List Nat :=
  (List.range outcomes.length).filterMap (fun k =>
    if outcomes.getD k false = true ∧ ((outcomes.take (k + 1)).count true) % 10 = 0
    then some (k + 1) else none)

/-- Outcome of one HTTP request in the retry loops of
`call_api_openai`/`call_api_anthropic`: a raised
`requests.exceptions.RequestException`, or a response with a status
code and (for 200-responses) the extracted message content when
present. -/
inductive Attempt where
  | transport : Attempt
  | http : Nat → Option String → Attempt
deriving DecidableEq

/-- Observable behaviour of one run of the retry loop: returned content,
the `time.sleep` backoff durations in order, and how many requests were
issued. -/
structure CallResult where
  result : Option String
  sleeps : List Nat
  attemptsMade : Nat
deriving DecidableEq

/-- The `for attempt in range(max_retries)` loop of `call_api_openai`
(ai_model_processor.py 754-776) and `call_api_anthropic` (803-825):
`env` gives the outcome of each attempt (0-based), `a` is the current
attempt index, the fuel is the number of attempts left.  A 200 response
with content returns; any other response (non-2xx is logged) falls
through to the next attempt with no sleep; a transport exception sleeps
`retry_delay * (attempt + 1)` unless this was the last attempt. -/
def call_api_loop (env : Nat → Attempt) (retry_delay : Nat) (a : Nat) :
    Nat → CallResult
  | 0 => ⟨none, [], 0⟩
  | r + 1 =>
      match env a with
      | .http status content =>
          if status = 200 then
            match content with
            | some c => ⟨some c, [], 1⟩
            | none =>
                let rest := call_api_loop env retry_delay (a + 1) r
                ⟨rest.result, rest.sleeps, rest.attemptsMade + 1⟩
          else
            let rest := call_api_loop env retry_delay (a + 1) r
            ⟨rest.result, rest.sleeps, rest.attemptsMade + 1⟩
      | .transport =>
          let rest := call_api_loop env retry_delay (a + 1) r
          ⟨rest.result, (if r = 0 then [] else [retry_delay * (a + 1)]) ++ rest.sleeps,
            rest.attemptsMade + 1⟩

/-- Full call-and-retry routine: run the loop from attempt 0 with
`max_retries` attempts available (`return None` after the loop). -/
def call_api (env : Nat → Attempt) (max_retries retry_delay : Nat) : CallResult :=
  call_api_loop env retry_delay 0 max_retries

/-- Content returned by a single attempt when it is a success
(status 200 with extractable message content). -/
def succContent : Attempt → Option String
  | .http status content => if status = 200 then content else none
  | .transport => none

/-- Index of the first successful attempt in the window starting at `a`
with the given number of attempts available. -/
def firstSuccIdx (env : Nat → Attempt) : Nat → Nat → Option Nat
  | _, 0 => none
  | a, r + 1 =>
      if (succContent (env a)).isSome then some a else firstSuccIdx env (a + 1) r

/-- Number of requests the loop issues in the window starting at `a`. -/
def attemptsIn (env : Nat → Attempt) (a r : Nat) : Nat :=
  match firstSuccIdx env a r with
  | some i => i + 1 - a
  | none => r

/-- `ExcelImageExtractor._detect_image_mime` (ai_model_processor.py
202-214), on the byte string's values. -/
def _detect_image_mime (image_data : List Nat) : String :=
  if image_data.take 8 = [0x89, 0x50, 0x4E, 0x47, 0x0D, 0x0A, 0x1A, 0x0A] then
    "image/png"
  else if image_data.take 2 = [0xFF, 0xD8] then "image/jpeg"
  else if image_data.take 6 = [0x47, 0x49, 0x46, 0x38, 0x37, 0x61] ∨
      image_data.take 6 = [0x47, 0x49, 0x46, 0x38, 0x39, 0x61] then "image/gif"
  else if image_data.take 4 = [0x52, 0x49, 0x46, 0x46] ∧
      (image_data.drop 8).take 4 = [0x57, 0x45, 0x42, 0x50] then "image/webp"
  else "image/png"

/-- `re.search(r'image(\d+)', ...)` on a filename: value of the maximal
digit run after the first occurrence of `image` that is followed by at
least one digit. -/
def findImageNumAux : List Char → Option Nat
  | [] => none
  | c :: rest =>
      if leadsWith "image".data (c :: rest) then
        let ds := ((c :: rest).drop 5).takeWhile Char.isDigit
        if ds.isEmpty then findImageNumAux rest else some (digitsToNat ds)
      else findImageNumAux rest

/-- Numeric suffix embedded in an image filename, if any. -/
def findImageNum (s : String) : Option Nat := findImageNumAux s.data

/-- The image-keying loop of
`ExcelImageExtractor._extract_from_xlsx_archive` (ai_model_processor.py
173-197), with the stored payload abstracted by the filename it was
read from.  `positions` is the anchor map built from the drawing files
(row by structured extraction); a file without an anchor is keyed by
its filename's numeric suffix plus one (header row), and skipped when
it has none.  Later files overwrite earlier ones on the same key, as
with the Python dict. -/
def archive_step (positions : String → Option Nat) (acc : Nat → Option String)
    (f : String) : Nat → Option String :=
  match positions f with
  | some row => fun r => if r = row then some f else acc r
  | none =>
      match findImageNum f with
      | some n => fun r => if r = n + 1 then some f else acc r
      | none => acc

/-- The whole keying loop over the archive's media files, starting from
an empty image dict. -/
def archive_images (positions : String → Option Nat) (image_files : List String) :
    Nat → Option String :=
  image_files.foldl (archive_step positions) (fun _ => none)

/-- The anchor map when structured extraction resolved zero images. -/
def emptyPos : String → Option Nat := fun _ => none

/-- Insertion into a list kept sorted by numeric filename suffix. -/
def insertByNum (f : String) : List String → List String
  | [] => [f]
  | g :: gs =>
      if (findImageNum f).getD 0 ≤ (findImageNum g).getD 0 then f :: g :: gs
      else g :: insertByNum f gs

/-- Sort filenames by their numeric suffix. -/
def sortByNum (l : List String) : List String := l.foldr insertByNum []

/-- Modelled from the spec: the fallback assignment as claim C4 states
it — sort the media files by numeric suffix and assign the image at
sorted position `i` to row `i + 2`. -/
def spec_fallback_images (image_files : List String) : Nat → Option String :=
  fun r => ((sortByNum image_files).enum.find? (fun p => p.1 + 2 = r)).map (fun p => p.2)

/-- Strategy 3 of `parse_ai_response`: substring from the first `{` to
the last `}`, if both exist in that order (ai_model_processor.py
951-958). -/
def tryBraces (loads : String → Option Json) (content : String) : Option Json :=
  match strFind content "\x7b", strRevFind content '\x7d' with
  | some a, some b => if a ≤ b then loads (strSlice content a (b + 1)) else none
  | _, _ => none

/-- `AIModelProcessor.parse_ai_response` (ai_model_processor.py
938-962), parameterized by the `json.loads` model: whole-string JSON if
the stripped content is brace-delimited; otherwise the first
` ```json `-fenced block when a closing fence follows; otherwise the
first-`{`-to-last-`}` substring.  A `loads` failure anywhere is the
raised `JSONDecodeError`, caught at the top: the whole call returns
`none` without falling through to a later strategy. -/
def parse_ai_response (loads : String → Option Json) (content : String) : Option Json :=
  if headIs (pyStrip content) '\x7b' && lastIs (pyStrip content) '\x7d' then
    loads content
  else
    match strFind content "```json" with
    | some fidx =>
        match strFindFrom content "```" (fidx + 7) with
        | some e =>
            if fidx + 7 < e then loads (pyStrip (strSlice content (fidx + 7) e))
            else tryBraces loads content
        | none => tryBraces loads content
    | none => tryBraces loads content

/-- Modelled from the spec: `parse` as claim C7 states it — try the
three strategies in order and return the first successfully parsed
object. -/
def spec_parse_ai_response (loads : String → Option Json) (content : String) :
    Option Json :=
  let s1 :=
    if headIs (pyStrip content) '\x7b' && lastIs (pyStrip content) '\x7d' then
      loads content
    else none
  match s1 with
  | some j => some j
  | none =>
      let s2 :=
        match strFind content "```json" with
        | some fidx =>
            match strFindFrom content "```" (fidx + 7) with
            | some e =>
                if fidx + 7 < e then loads (pyStrip (strSlice content (fidx + 7) e))
                else none
            | none => none
        | none => none
      match s2 with
      | some j => some j
      | none => tryBraces loads content

/-- `AIModelProcessor.get_image_for_row` (ai_model_processor.py
603-636).  `extractor` is `self.excel_image_extractor` as a lookup from
Excel row number to stored data URL; `col_in_row` says whether
`image_col` is non-empty and present in the row; `img_value` is the
row's value in that column. -/
def get_image_for_row (image_source : String) (extractor : Option (Nat → Option String))
    (row_index : Nat) (col_in_row : Bool) (img_value : Option String) : Option String :=
  let fromEmbedded : Option String :=
    match extractor with
    | some get =>
        if image_source = "auto" || image_source = "embedded" then
          match get (row_index + 2) with
          | some url => if url != "" then some url else none
          | none => none
        else none
    | none => none
  match fromEmbedded with
  | some url => some url
  | none =>
      if col_in_row then
        match img_value with
        | some v => if pyStrip v != "" then some (pyStrip v) else none
        | none => none
      else none

/-! ## Helper lemmas -/

theorem getD_set_self_of_lt {α : Type} (l : List α) (i : Nat) (v d : α)
    (h : i < l.length) : (l.set i v).getD i d = v := by
  simp [List.getD_eq_getElem?_getD, List.getElem?_set, h]

theorem getD_set_of_ne {α : Type} (l : List α) (i j : Nat) (v d : α)
    (h : i ≠ j) : (l.set i v).getD j d = l.getD j d := by
  simp [List.getD_eq_getElem?_getD, List.getElem?_set_ne h]

/-! ## C8: image-format sniffing -/

/-- C8: `_detect_image_mime` returns `image/png` for the 8-byte PNG
signature, `image/jpeg` for a leading `FF D8`, `image/gif` for a
`GIF87a`/`GIF89a` prefix, `image/webp` for `RIFF....WEBP`, and defaults
to `image/png` when no signature matches. -/
theorem c8_detect_image_mime (data : List Nat) :
    (data.take 8 = [0x89, 0x50, 0x4E, 0x47, 0x0D, 0x0A, 0x1A, 0x0A] →
      _detect_image_mime data = "image/png") ∧
    (data.take 2 = [0xFF, 0xD8] → _detect_image_mime data = "image/jpeg") ∧
    ((data.take 6 = [0x47, 0x49, 0x46, 0x38, 0x37, 0x61] ∨
      data.take 6 = [0x47, 0x49, 0x46, 0x38, 0x39, 0x61]) →
      _detect_image_mime data = "image/gif") ∧
    ((data.take 4 = [0x52, 0x49, 0x46, 0x46] ∧
      (data.drop 8).take 4 = [0x57, 0x45, 0x42, 0x50]) →
      _detect_image_mime data = "image/webp") ∧
    (data.take 8 ≠ [0x89, 0x50, 0x4E, 0x47, 0x0D, 0x0A, 0x1A, 0x0A] →
      data.take 2 ≠ [0xFF, 0xD8] →
      ¬ (data.take 6 = [0x47, 0x49, 0x46, 0x38, 0x37, 0x61] ∨
          data.take 6 = [0x47, 0x49, 0x46, 0x38, 0x39, 0x61]) →
      ¬ (data.take 4 = [0x52, 0x49, 0x46, 0x46] ∧
          (data.drop 8).take 4 = [0x57, 0x45, 0x42, 0x50]) →
      _detect_image_mime data = "image/png") := by
  refine ⟨fun h => by simp [_detect_image_mime, h], ?_, ?_, ?_, ?_⟩
  · intro h
    have hp : data.take 8 ≠ [0x89, 0x50, 0x4E, 0x47, 0x0D, 0x0A, 0x1A, 0x0A] := by
      intro hc
      have h2 := congrArg (List.take 2) hc
      rw [List.take_take] at h2
      norm_num at h2
      rw [h] at h2
      simp at h2
    simp [_detect_image_mime, hp, h]
  · intro h
    have h2 : data.take 2 = [0x47, 0x49] := by
      rcases h with hc | hc <;>
        · have h2 := congrArg (List.take 2) hc
          rw [List.take_take] at h2
          norm_num at h2
          exact h2
    have hp : data.take 8 ≠ [0x89, 0x50, 0x4E, 0x47, 0x0D, 0x0A, 0x1A, 0x0A] := by
      intro hc
      have h6 := congrArg (List.take 6) hc
      rw [List.take_take] at h6
      norm_num at h6
      rcases h with hg | hg <;> rw [hg] at h6 <;> simp at h6
    have hj : data.take 2 ≠ [0xFF, 0xD8] := by
      intro hc
      rw [hc] at h2
      simp at h2
    simp [_detect_image_mime, hp, hj, h]
  · intro h
    obtain ⟨h4, h5⟩ := h
    have h2 : data.take 2 = [0x52, 0x49] := by
      have h2 := congrArg (List.take 2) h4
      rw [List.take_take] at h2
      norm_num at h2
      exact h2
    have hp : data.take 8 ≠ [0x89, 0x50, 0x4E, 0x47, 0x0D, 0x0A, 0x1A, 0x0A] := by
      intro hc
      have hx := congrArg (List.take 2) hc
      rw [List.take_take] at hx
      norm_num at hx
      rw [h2] at hx
      simp at hx
    have hj : data.take 2 ≠ [0xFF, 0xD8] := by
      intro hc
      rw [hc] at h2
      simp at h2
    have hg : ¬ (data.take 6 = [0x47, 0x49, 0x46, 0x38, 0x37, 0x61] ∨
        data.take 6 = [0x47, 0x49, 0x46, 0x38, 0x39, 0x61]) := by
      rintro (hc | hc) <;>
        · have hx := congrArg (List.take 2) hc
          rw [List.take_take] at hx
          norm_num at hx
          rw [h2] at hx
          simp at hx
    simp [_detect_image_mime, hp, hj, hg, h4, h5]
  · intro h1 h2 h3 h4
    simp [_detect_image_mime, h1, h2, h3, h4]

/-- Closed instantiation of `c8_detect_image_mime` on concrete byte
strings of each signature class. -/
theorem c8_detect_image_mime_witness :
    _detect_image_mime [0x89, 0x50, 0x4E, 0x47, 0x0D, 0x0A, 0x1A, 0x0A, 1] = "image/png" ∧
    _detect_image_mime [0xFF, 0xD8, 0] = "image/jpeg" ∧
    _detect_image_mime [0x47, 0x49, 0x46, 0x38, 0x39, 0x61] = "image/gif" ∧
    _detect_image_mime
      [0x52, 0x49, 0x46, 0x46, 0, 0, 0, 0, 0x57, 0x45, 0x42, 0x50] = "image/webp" ∧
    _detect_image_mime [] = "image/png" :=
  ⟨(c8_detect_image_mime _).1 (by decide),
   (c8_detect_image_mime _).2.1 (by decide),
   (c8_detect_image_mime _).2.2.1 (Or.inr (by decide)),
   (c8_detect_image_mime _).2.2.2.1 (by decide),
   (c8_detect_image_mime _).2.2.2.2 (by decide) (by decide) (by decide) (by decide)⟩

/-! ## C6: result-column naming -/

/-- C6 (counterexample): two distinct model identifiers, `gpt-4o` and
`gpt.4o`, target the same synthesized result column, so a different
model identifier does not always target a different column. -/
theorem c6_counterexample :
    response_col "gpt-4o" = response_col "gpt.4o" ∧
    "gpt-4o" ≠ "gpt.4o" ∧
    ¬ (∀ m1 m2 : String, m1 ≠ m2 → response_col m1 ≠ response_col m2) := by
  refine ⟨by decide, by decide, fun h => ?_⟩
  exact h "gpt-4o" "gpt.4o" (by decide) (by decide)

/-- C6 (amended): the result-column name is the deterministic function
`"ai_response_" ++ model_name_safe model`, and two runs target the same
column exactly when the sanitized model names (after replacing `-` and
`.` by `_`) coincide. -/
theorem c6_column_determined_by_sanitized_name (m1 m2 : String) :
    response_col m1 = response_col m2 ↔ model_name_safe m1 = model_name_safe m2 := by
  constructor
  · intro h
    have hd := congrArg String.data h
    rw [response_col, response_col, String.data_append, String.data_append] at hd
    exact String.ext (List.append_cancel_left hd)
  · intro h
    rw [response_col, response_col, h]

/-! ## C10: per-row image lookup -/

/-- C10: in `auto` or `embedded` mode, when the extractor holds an
image for Excel row `row_index + 2` it is returned (regardless of the
image-path column's value); the image-path column is consulted only
when the extractor has no image for that row. -/
theorem c10_embedded_image_priority (src : String) (get : Nat → Option String)
    (i : Nat) (present : Bool) (v : Option String)
    (hsrc : src = "auto" ∨ src = "embedded") :
    (∀ url, get (i + 2) = some url → url ≠ "" →
      get_image_for_row src (some get) i present v = some url) ∧
    (get (i + 2) = none →
      get_image_for_row src (some get) i present v =
        (if present then
          (match v with
          | some s => if pyStrip s != "" then some (pyStrip s) else none
          | none => none)
        else none)) := by
  have hcond : (decide (src = "auto") || decide (src = "embedded")) = true := by
    rcases hsrc with h | h <;> simp [h]
  constructor
  · intro url hget hurl
    have hb : (url != "") = true := by simpa using hurl
    simp [get_image_for_row, hcond, hget, hb]
  · intro hget
    simp [get_image_for_row, hcond, hget]

/-- Closed instantiation of `c10_embedded_image_priority`: a row with
both an embedded image and a non-empty path value yields the embedded
data URL; without an embedded image the stripped path value is used. -/
theorem c10_embedded_image_priority_witness :
    get_image_for_row "auto"
      (some (fun r => if r = 2 then some "data:image/png;base64,AA" else none)) 0 true
      (some " p.png ") = some "data:image/png;base64,AA" ∧
    get_image_for_row "auto"
      (some (fun r => if r = 2 then some "data:image/png;base64,AA" else none)) 1 true
      (some " p.png ") = some (pyStrip " p.png ") :=
  ⟨(c10_embedded_image_priority "auto"
      (fun r => if r = 2 then some "data:image/png;base64,AA" else none) 0 true
      (some " p.png ") (Or.inl rfl)).1 "data:image/png;base64,AA" (by decide) (by decide),
   by
    rw [(c10_embedded_image_priority "auto"
      (fun r => if r = 2 then some "data:image/png;base64,AA" else none) 1 true
      (some " p.png ") (Or.inl rfl)).2 (by decide)]
    decide⟩

/-! ## Completion tracker and result store lemmas -/

theorem check_row_false_iff (t : Table) (i : Nat) :
    check_row_processed t i = false ↔
      (t.hasCol = false ∨ t.vals.getD i none = none ∨
        ∃ s, t.vals.getD i none = some s ∧ pyStrip s = "") := by
  unfold check_row_processed
  cases hcol : t.hasCol with
  | false => simp
  | true =>
      cases hv : t.vals.getD i none with
      | none => simp
      | some s => simp [bne_eq_false_iff_eq]

theorem mem_pending_iff (t : Table) (i : Nat) :
    i ∈ pending t ↔ i < t.vals.length ∧ check_row_processed t i = false := by
  simp [pending, List.mem_filter, List.mem_range, and_comm]

theorem writeCell_hasCol (t : Table) (i : Nat) (v : String) :
    (writeCell t i v).hasCol = t.hasCol := rfl

theorem writeCell_length (t : Table) (i : Nat) (v : String) :
    (writeCell t i v).vals.length = t.vals.length := by
  simp [writeCell]

theorem check_writeCell_self (t : Table) (i : Nat) (v : String)
    (hc : t.hasCol = true) (hi : i < t.vals.length) (hv : pyStrip v ≠ "") :
    check_row_processed (writeCell t i v) i = true := by
  unfold check_row_processed writeCell
  simp only [hc, if_true]
  rw [getD_set_self_of_lt _ _ _ _ hi]
  simpa using hv

theorem check_writeCell_ne (t : Table) (i j : Nat) (v : String) (h : i ≠ j) :
    check_row_processed (writeCell t i v) j = check_row_processed t j := by
  unfold check_row_processed writeCell
  simp only
  rw [getD_set_of_ne _ _ _ _ _ h]

theorem mem_pending_writeCell (t : Table) (j : Nat) (v : String)
    (hc : t.hasCol = true) (hv : pyStrip v ≠ "") (i : Nat) :
    i ∈ pending (writeCell t j v) ↔ i ∈ pending t ∧ i ≠ j := by
  rw [mem_pending_iff, mem_pending_iff, writeCell_length]
  by_cases hij : i = j
  · subst hij
    simp only [ne_eq, not_true_eq_false, and_false, iff_false]
    rintro ⟨hlen, hcheck⟩
    rw [check_writeCell_self t i v hc hlen hv] at hcheck
    exact absurd hcheck (by simp)
  · rw [check_writeCell_ne t j i v (fun he => hij he.symm)]
    simp [hij]

theorem mem_pending_applyWrites (t : Table) (ws : List (Nat × String))
    (hc : t.hasCol = true) (hws : ∀ w ∈ ws, pyStrip w.2 ≠ "") (i : Nat) :
    i ∈ pending (applyWrites t ws) ↔ i ∈ pending t ∧ i ∉ ws.map Prod.fst := by
  induction ws generalizing t with
  | nil => simp [applyWrites]
  | cons w rest ih =>
      have hstep : applyWrites t (w :: rest) = applyWrites (writeCell t w.1 w.2) rest := rfl
      rw [hstep, ih (writeCell t w.1 w.2) (by rw [writeCell_hasCol]; exact hc)
        (fun x hx => hws x (List.mem_cons_of_mem w hx)),
        mem_pending_writeCell t w.1 w.2 hc (hws w (List.mem_cons_self w rest)) i]
      simp only [List.map_cons, List.mem_cons]
      tauto

/-! ## C1: pending-row computation -/

/-- C1: the pending scan lists exactly the in-range row indices whose
result value is absent (missing column or `NaN`) or trims to the empty
string; and after any batch of writes of non-blank results, a row is
pending exactly when it was pending before and was not written —
independent of the order of the writes. -/
theorem c1_pending_tracker (t : Table) :
    (∀ i, i ∈ pending t ↔ i < t.vals.length ∧
      (t.hasCol = false ∨ t.vals.getD i none = none ∨
        ∃ s, t.vals.getD i none = some s ∧ pyStrip s = "")) ∧
    (t.hasCol = true → ∀ ws : List (Nat × String), (∀ w ∈ ws, pyStrip w.2 ≠ "") →
      ∀ i, i ∈ pending (applyWrites t ws) ↔ i ∈ pending t ∧ i ∉ ws.map Prod.fst) := by
  constructor
  · intro i
    rw [mem_pending_iff, check_row_false_iff]
  · intro hc ws hws i
    exact mem_pending_applyWrites t ws hc hws i

/-- Closed instantiation of `c1_pending_tracker` on a concrete table:
rows 1 (blank) and 2 (`NaN`) are pending, and after filling row 1 with
a non-blank result only row 2 remains pending. -/
theorem c1_pending_tracker_witness :
    (1 ∈ pending (Table.mk true [some "done", some "  ", none]) ↔
      1 < 3 ∧ (False ∨ some "  " = none ∨
        ∃ s, some "  " = some s ∧ pyStrip s = "")) ∧
    (1 ∈ pending (applyWrites (Table.mk true [some "done", some "  ", none])
        [(1, "r")]) ↔
      1 ∈ pending (Table.mk true [some "done", some "  ", none]) ∧
        1 ∉ [(1, "r")].map Prod.fst) :=
  ⟨by
    have h := (c1_pending_tracker (Table.mk true [some "done", some "  ", none])).1 1
    simpa using h,
   (c1_pending_tracker (Table.mk true [some "done", some "  ", none])).2 rfl
     [(1, "r")] (by intro w hw; simp at hw; subst hw; decide) 1⟩

/-! ## C5: per-row write isolation -/

theorem process_single_row_length (t : Table) (idx : Nat) (r : Option Json) :
    (process_single_row t idx r).1.vals.length = t.vals.length := by
  unfold process_single_row
  cases r with
  | none => rfl
  | some j =>
      cases hj : truthy j <;> simp [hj, writeCell_length, writeCell]

theorem process_single_row_getD_ne (t : Table) (idx : Nat) (r : Option Json)
    (i : Nat) (h : idx ≠ i) :
    (process_single_row t idx r).1.vals.getD i none = t.vals.getD i none := by
  unfold process_single_row
  cases r with
  | none => rfl
  | some j =>
      cases hj : truthy j
      · simp [hj]
      · simp only [hj, if_true, writeCell]
        exact getD_set_of_ne _ _ _ _ _ h

/-- C5: a failed task leaves the table exactly as it was; a successful
task performs the single write of its serialized result into its own
row and changes no other row; the dispatch loop always proceeds past
failures (processing a batch is composition over its tasks); and rows
not targeted by any task are untouched by a whole batch. -/
theorem c5_row_write_isolation :
    (∀ (t : Table) (idx : Nat) (r : Option Json),
      (process_single_row t idx r).2 = false → (process_single_row t idx r).1 = t) ∧
    (∀ (t : Table) (idx : Nat) (j : Json),
      (process_single_row t idx (some j)).2 = true →
      (process_single_row t idx (some j)).1.vals =
          t.vals.set idx (some (jsonDumps j)) ∧
        (process_single_row t idx (some j)).1.hasCol = t.hasCol ∧
        (process_single_row t idx (some j)).1.vals.length = t.vals.length ∧
        ∀ i, i ≠ idx →
          (process_single_row t idx (some j)).1.vals.getD i none =
            t.vals.getD i none) ∧
    (∀ (t : Table) (ts1 ts2 : List (Nat × Option Json)),
      runBatch t (ts1 ++ ts2) = runBatch (runBatch t ts1) ts2) ∧
    (∀ (t : Table) (tasks : List (Nat × Option Json)) (i : Nat),
      (∀ task ∈ tasks, task.1 ≠ i) →
      (runBatch t tasks).vals.getD i none = t.vals.getD i none ∧
        (runBatch t tasks).vals.length = t.vals.length) := by
  refine ⟨?_, ?_, ?_, ?_⟩
  · intro t idx r h
    cases r with
    | none => rfl
    | some j =>
        cases hj : truthy j
        · simp [process_single_row, hj]
        · exfalso
          simp [process_single_row, hj] at h
  · intro t idx j h
    cases hj : truthy j
    · exfalso
      simp [process_single_row, hj] at h
    · refine ⟨?_, ?_, process_single_row_length t idx (some j), ?_⟩
      · simp [process_single_row, hj, writeCell]
      · simp [process_single_row, hj, writeCell]
      · intro i hi
        exact process_single_row_getD_ne t idx (some j) i (fun he => hi he.symm)
  · intro t ts1 ts2
    exact List.foldl_append _ _ ts1 ts2
  · intro t tasks i htasks
    induction tasks generalizing t with
    | nil => exact ⟨rfl, rfl⟩
    | cons task rest ih =>
        have hstep : runBatch t (task :: rest) =
            runBatch (process_single_row t task.1 task.2).1 rest := rfl
        rw [hstep]
        obtain ⟨h1, h2⟩ := ih (process_single_row t task.1 task.2).1
          (fun x hx => htasks x (List.mem_cons_of_mem task hx))
        refine ⟨?_, ?_⟩
        · rw [h1, process_single_row_getD_ne t task.1 task.2 i
            (htasks task (List.mem_cons_self task rest))]
        · rw [h2, process_single_row_length]

/-- Closed instantiation of `c5_row_write_isolation`: a successful write
to row 0 of a two-row table leaves row 1 unchanged, and a failing task
leaves the table untouched. -/
theorem c5_row_write_isolation_witness :
    (process_single_row (Table.mk true [some "", some "kept"]) 0
        (some (Json.obj [("a", Json.num 1)]))).1.vals.getD 1 none = some "kept" ∧
    (process_single_row (Table.mk true [some "", some "kept"]) 0 none).1 =
      Table.mk true [some "", some "kept"] :=
  ⟨by
    rw [(c5_row_write_isolation.2.1 (Table.mk true [some "", some "kept"]) 0
      (Json.obj [("a", Json.num 1)]) rfl).2.2.2 1 (by decide)]
    rfl,
   c5_row_write_isolation.1 (Table.mk true [some "", some "kept"]) 0 none rfl⟩

/-! ## C9: success durably marks a row complete -/

theorem mem_dropWhile_of_false {α : Type} (p : α → Bool) (l : List α) (x : α)
    (hx : x ∈ l) (hpx : p x = false) : x ∈ l.dropWhile p := by
  induction l with
  | nil => cases hx
  | cons a as ih =>
      rw [List.dropWhile_cons]
      cases hpa : p a with
      | false => simpa using hx
      | true =>
          simp only [if_true]
          rcases List.mem_cons.mp hx with he | hm
          · subst he
            rw [hpa] at hpx
            cases hpx
          · exact ih hm

theorem dropWhile_ne_nil_of_mem {α : Type} (p : α → Bool) (l : List α) (x : α)
    (hx : x ∈ l) (hpx : p x = false) : l.dropWhile p ≠ [] := by
  intro hnil
  have := mem_dropWhile_of_false p l x hx hpx
  rw [hnil] at this
  cases this

theorem stripChars_ne_nil (l : List Char) (x : Char) (hx : x ∈ l)
    (hpx : isPySpace x = false) : stripChars l ≠ [] := by
  unfold stripChars
  intro hnil
  rw [List.reverse_eq_nil_iff] at hnil
  have h1 : x ∈ l.dropWhile isPySpace := mem_dropWhile_of_false _ _ _ hx hpx
  have h2 : x ∈ (l.dropWhile isPySpace).reverse := List.mem_reverse.mpr h1
  exact dropWhile_ne_nil_of_mem _ _ _ h2 hpx hnil

theorem pyStrip_ne_empty (s : String) (x : Char) (hx : x ∈ s.data)
    (hpx : isPySpace x = false) : pyStrip s ≠ "" := by
  intro h
  have hd : stripChars s.data = [] := congrArg String.data h
  exact stripChars_ne_nil s.data x hx hpx hd

theorem natReprAux_head (fuel n : Nat) :
    ∃ d rest, natReprAux (fuel + 1) n = Nat.digitChar d :: rest ∧ d < 10 := by
  induction fuel generalizing n with
  | zero =>
      by_cases h : n < 10
      · exact ⟨n, [], by simp [natReprAux, h], h⟩
      · refine ⟨n % 10, [], ?_, Nat.mod_lt n (by omega)⟩
        simp [natReprAux, h]
  | succ fuel ih =>
      by_cases h : n < 10
      · exact ⟨n, [], by simp [natReprAux, h], h⟩
      · obtain ⟨d, rest, heq, hd⟩ := ih (n / 10)
        refine ⟨d, rest ++ [Nat.digitChar (n % 10)], ?_, hd⟩
        rw [natReprAux, if_neg h, heq]
        rfl

theorem isPySpace_digitChar (d : Nat) (h : d < 10) :
    isPySpace (Nat.digitChar d) = false := by
  interval_cases d <;> rfl

theorem natRepr_head (n : Nat) :
    ∃ c cs, (natRepr n).data = c :: cs ∧ isPySpace c = false := by
  obtain ⟨d, rest, heq, hd⟩ := natReprAux_head n n
  exact ⟨Nat.digitChar d, rest, heq, isPySpace_digitChar d hd⟩

theorem intRepr_head (n : Int) :
    ∃ c cs, (intRepr n).data = c :: cs ∧ isPySpace c = false := by
  unfold intRepr
  by_cases h : n < 0
  · obtain ⟨c, cs, heq, _⟩ := natRepr_head n.natAbs
    refine ⟨'-', (natRepr n.natAbs).data, ?_, rfl⟩
    simp [h, String.data_append]
  · obtain ⟨c, cs, heq, hc⟩ := natRepr_head n.natAbs
    exact ⟨c, cs, by simp [h, heq], hc⟩

theorem jsonDumps_head (j : Json) :
    ∃ c cs, (jsonDumps j).data = c :: cs ∧ isPySpace c = false := by
  cases j with
  | null => exact ⟨'n', ['u', 'l', 'l'], rfl, rfl⟩
  | bool b => cases b
              · exact ⟨'f', ['a', 'l', 's', 'e'], rfl, rfl⟩
              · exact ⟨'t', ['r', 'u', 'e'], rfl, rfl⟩
  | num n => simpa [jsonDumps] using intRepr_head n
  | str s =>
      refine ⟨'"', (s ++ "\"").data, ?_, rfl⟩
      show ("\"" ++ (s ++ "\"")).data = '"' :: (s ++ "\"").data
      rw [String.data_append]
      rfl
  | arr xs =>
      refine ⟨'[', (jsonDumpsSeq xs ++ "]").data, ?_, rfl⟩
      show ("[" ++ jsonDumpsSeq xs ++ "]").data = '[' :: (jsonDumpsSeq xs ++ "]").data
      rw [String.append_assoc, String.data_append]
      rfl
  | obj kvs =>
      refine ⟨'\x7b', (jsonDumpsMembers kvs ++ "\x7d").data, ?_, rfl⟩
      show ("\x7b" ++ jsonDumpsMembers kvs ++ "\x7d").data =
        '\x7b' :: (jsonDumpsMembers kvs ++ "\x7d").data
      rw [String.append_assoc, String.data_append]
      rfl

theorem pyStrip_jsonDumps_ne (j : Json) : pyStrip (jsonDumps j) ≠ "" := by
  obtain ⟨c, cs, heq, hc⟩ := jsonDumps_head j
  exact pyStrip_ne_empty (jsonDumps j) c (by rw [heq]; exact List.mem_cons_self c cs) hc

/-- C9 (amended): whenever `process_single_row` reports success on an
in-range row of a table that has the response column, the serialized
parsed value (any truthy JSON value — not necessarily a dict) is what
lands in that row's cell, the completion check holds for the row
afterwards, and the row is excluded from every subsequent pending
scan. -/
theorem c9_success_marks_complete (t : Table) (idx : Nat) (j : Json)
    (hc : t.hasCol = true) (hi : idx < t.vals.length)
    (hs : (process_single_row t idx (some j)).2 = true) :
    (process_single_row t idx (some j)).1.vals.getD idx none =
        some (jsonDumps j) ∧
      check_row_processed (process_single_row t idx (some j)).1 idx = true ∧
      idx ∉ pending (process_single_row t idx (some j)).1 := by
  cases hj : truthy j
  · exfalso
    simp [process_single_row, hj] at hs
  · have h1 : (process_single_row t idx (some j)).1 = writeCell t idx (jsonDumps j) := by
      simp [process_single_row, hj]
    rw [h1]
    have hcheck : check_row_processed (writeCell t idx (jsonDumps j)) idx = true :=
      check_writeCell_self t idx (jsonDumps j) hc hi (pyStrip_jsonDumps_ne j)
    refine ⟨?_, hcheck, ?_⟩
    · unfold writeCell
      exact getD_set_self_of_lt _ _ _ _ hi
    · rw [mem_pending_iff]
      rintro ⟨_, hfalse⟩
      rw [hcheck] at hfalse
      cases hfalse

/-- Closed instantiation of `c9_success_marks_complete` at a concrete
single-row table and parsed value. -/
theorem c9_success_marks_complete_witness :
    (process_single_row (Table.mk true [some ""]) 0
        (some (Json.obj [("k", Json.str "v")]))).1.vals.getD 0 none =
      some (jsonDumps (Json.obj [("k", Json.str "v")])) ∧
    check_row_processed (process_single_row (Table.mk true [some ""]) 0
        (some (Json.obj [("k", Json.str "v")]))).1 0 = true :=
  ⟨(c9_success_marks_complete (Table.mk true [some ""]) 0
      (Json.obj [("k", Json.str "v")]) rfl (by decide) rfl).1,
   (c9_success_marks_complete (Table.mk true [some ""]) 0
      (Json.obj [("k", Json.str "v")]) rfl (by decide) rfl).2.1⟩

/-- C9 (counterexample): the response text ` ```json 5 ``` ` parses to
the JSON number `5`, which is truthy, so the worker reports success and
writes `"5"` — which is not the serialization of any dict.  The claim's
"JSON serialization of a parsed dict" therefore does not hold of every
successful row. -/
theorem c9_counterexample :
    parse_ai_response miniLoads "```json 5 ```" = some (Json.num 5) ∧
    (process_single_row (Table.mk true [some ""]) 0 (some (Json.num 5))).2 = true ∧
    (process_single_row (Table.mk true [some ""]) 0
        (some (Json.num 5))).1.vals.getD 0 none = some "5" ∧
    ¬ ∃ kvs : List (String × Json), jsonDumps (Json.obj kvs) = "5" := by
  refine ⟨rfl, rfl, rfl, ?_⟩
  rintro ⟨kvs, h⟩
  have hd := congrArg String.data h
  have hobj : (jsonDumps (Json.obj kvs)).data =
      '\x7b' :: (jsonDumpsMembers kvs ++ "\x7d").data := by
    show ("\x7b" ++ jsonDumpsMembers kvs ++ "\x7d").data =
      '\x7b' :: (jsonDumpsMembers kvs ++ "\x7d").data
    rw [String.append_assoc, String.data_append]
    rfl
  rw [hobj] at hd
  have : '\x7b' = '5' := by
    have h5 : ("5" : String).data = ['5'] := rfl
    rw [h5] at hd
    exact (List.cons.injEq _ _ _ _).mp hd |>.1
  cases this

/-! ## C7: response parsing -/

/-- C7 (counterexample): on `` ```json oops ``` {"a":1} `` the fenced
strategy applies (a closing fence follows) but its extract `oops` fails
to parse, and `parse_ai_response` returns a parse failure — it does not
fall through to the brace-substring strategy, although that strategy's
extract `{"a":1}` parses.  So `parse` does not return "the first
successfully parsed object" across strategies. -/
theorem c7_counterexample :
    parse_ai_response miniLoads "```json oops ``` \x7b\"a\":1\x7d" = none ∧
    spec_parse_ai_response miniLoads "```json oops ``` \x7b\"a\":1\x7d" =
      some (Json.obj [("a", Json.num 1)]) :=
  ⟨rfl, rfl⟩

/-- C7 (amended): `parse_ai_response` checks the strategies'
applicability in order (whole stripped string brace-delimited; fenced
block with a closing fence; brace substring) and commits to the first
applicable one — a parse failure there fails the whole call without
trying later strategies; the fenced example from the claim parses to
`{"Category": "x"}`, and unparseable text yields a parse failure (the
embedding is total, modelling that no exception escapes). -/
theorem c7_parse_strategy_order :
    parse_ai_response miniLoads "blah ```json \x7b\"Category\":\"x\"\x7d ``` blah" =
      some (Json.obj [("Category", Json.str "x")]) ∧
    parse_ai_response miniLoads "no json here at all" = none ∧
    (∀ (loads : String → Option Json) (content : String),
      ((headIs (pyStrip content) '\x7b' && lastIs (pyStrip content) '\x7d') = true) →
      parse_ai_response loads content = loads content) ∧
    (∀ (loads : String → Option Json) (content : String) (fidx e : Nat),
      ((headIs (pyStrip content) '\x7b' && lastIs (pyStrip content) '\x7d') = false) →
      strFind content "```json" = some fidx →
      strFindFrom content "```" (fidx + 7) = some e →
      fidx + 7 < e →
      parse_ai_response loads content =
        loads (pyStrip (strSlice content (fidx + 7) e))) := by
  refine ⟨rfl, rfl, ?_, ?_⟩
  · intro loads content h
    unfold parse_ai_response
    rw [if_pos h]
  · intro loads content fidx e h1 h2 h3 h4
    unfold parse_ai_response
    rw [if_neg (by simp [h1]), h2]
    dsimp only
    rw [h3]
    simp only [if_pos h4]

/-- Closed instantiation of `c7_parse_strategy_order`: the whole-string
strategy is used for brace-delimited content, and for the
counterexample-shaped fenced content the committed strategy's extract
is exactly `oops`. -/
theorem c7_parse_strategy_order_witness :
    parse_ai_response miniLoads "\x7b\"a\":1\x7d" = miniLoads "\x7b\"a\":1\x7d" ∧
    parse_ai_response miniLoads "```json oops ``` x" =
      miniLoads (pyStrip (strSlice "```json oops ``` x" 7 13)) :=
  ⟨c7_parse_strategy_order.2.2.1 miniLoads "\x7b\"a\":1\x7d" (by decide),
   c7_parse_strategy_order.2.2.2 miniLoads "```json oops ``` x" 0 13 (by decide)
     (by decide) (by decide) (by decide)⟩

/-! ## C4: fallback image-to-row assignment -/

theorem archive_step_isSome (acc : Nat → Option String) (f : String) (r : Nat)
    (h : (acc r).isSome) : ((archive_step emptyPos acc f) r).isSome := by
  unfold archive_step emptyPos
  cases hn : findImageNum f with
  | none => exact h
  | some n =>
      simp only
      by_cases hr : r = n + 1
      · simp [hr]
      · simpa [hr] using h

theorem archive_fold_isSome (files : List String) (acc : Nat → Option String)
    (r : Nat) (h : (acc r).isSome) :
    ((files.foldl (archive_step emptyPos) acc) r).isSome := by
  induction files generalizing acc with
  | nil => exact h
  | cons g gs ih => exact ih (archive_step emptyPos acc g) (archive_step_isSome acc g r h)

theorem archive_fold_sound (files : List String) (acc : Nat → Option String)
    (r : Nat) (f : String)
    (h : (files.foldl (archive_step emptyPos) acc) r = some f) :
    acc r = some f ∨ (f ∈ files ∧ ∃ n, findImageNum f = some n ∧ r = n + 1) := by
  induction files generalizing acc with
  | nil => exact Or.inl h
  | cons g gs ih =>
      rcases ih (archive_step emptyPos acc g) h with hstep | hrest
      · unfold archive_step emptyPos at hstep
        cases hn : findImageNum g with
        | none =>
            rw [hn] at hstep
            exact Or.inl hstep
        | some n =>
            rw [hn] at hstep
            simp only at hstep
            by_cases hr : r = n + 1
            · rw [if_pos hr] at hstep
              refine Or.inr ⟨?_, n, ?_, hr⟩
              · rw [← Option.some_inj.mp hstep]
                exact List.mem_cons_self g gs
              · rw [← Option.some_inj.mp hstep]
                exact hn
            · rw [if_neg hr] at hstep
              exact Or.inl hstep
      · exact Or.inr ⟨List.mem_cons_of_mem g hrest.1, hrest.2⟩

theorem archive_fold_complete (files : List String) (acc : Nat → Option String)
    (f : String) (n : Nat) (hf : f ∈ files) (hn : findImageNum f = some n) :
    ((files.foldl (archive_step emptyPos) acc) (n + 1)).isSome := by
  induction files generalizing acc with
  | nil => cases hf
  | cons g gs ih =>
      rcases List.mem_cons.mp hf with he | hm
      · subst he
        refine archive_fold_isSome gs (archive_step emptyPos acc f) (n + 1) ?_
        unfold archive_step emptyPos
        rw [hn]
        simp
      · exact ih (archive_step emptyPos acc g) hm

/-- C4 (counterexample): with media files `image1.png` and `image3.png`
(a gap in the numbering) the code keys `image3.png` at row 4
(suffix + 1) and leaves row 3 empty, while the claimed
sorted-order-plus-2 assignment puts `image3.png` at row 3 and leaves
row 4 empty. -/
theorem c4_counterexample :
    archive_images emptyPos ["xl/media/image1.png", "xl/media/image3.png"] 4 =
      some "xl/media/image3.png" ∧
    spec_fallback_images ["xl/media/image1.png", "xl/media/image3.png"] 4 = none ∧
    archive_images emptyPos ["xl/media/image1.png", "xl/media/image3.png"] 3 = none ∧
    spec_fallback_images ["xl/media/image1.png", "xl/media/image3.png"] 3 =
      some "xl/media/image3.png" :=
  ⟨rfl, rfl, rfl, rfl⟩

/-- C4 (amended): when structured extraction resolved zero images, the
fallback keys each media file by its filename's numeric suffix alone —
a file with suffix `n` occupies row `n + 1` (one-row header offset),
every occupied row `r` is occupied by a listed file whose suffix is
`r - 1`, and files without a numeric suffix are skipped; no sorting or
positional assignment takes place.  (For suffixes exactly `1..N` this
coincides with the claimed assignment.) -/
theorem c4_fallback_by_suffix :
    (∀ (files : List String) (r : Nat) (f : String),
      archive_images emptyPos files r = some f →
      f ∈ files ∧ ∃ n, findImageNum f = some n ∧ r = n + 1) ∧
    (∀ (files : List String) (f : String) (n : Nat),
      f ∈ files → findImageNum f = some n →
      ∃ g, archive_images emptyPos files (n + 1) = some g ∧ g ∈ files ∧
        findImageNum g = some n) := by
  constructor
  · intro files r f h
    rcases archive_fold_sound files (fun _ => none) r f h with hnone | hgood
    · cases hnone
    · exact hgood
  · intro files f n hf hn
    have hsome := archive_fold_complete files (fun _ => none) f n hf hn
    obtain ⟨g, hg⟩ := Option.isSome_iff_exists.mp hsome
    rcases archive_fold_sound files (fun _ => none) (n + 1) g hg with hnone | hgood
    · cases hnone
    · obtain ⟨hmem, n', hn', heq⟩ := hgood
      have : n' = n := by omega
      subst this
      exact ⟨g, hg, hmem, hn'⟩

/-- Closed instantiation of `c4_fallback_by_suffix`: `image7.png` has
suffix 7 and is assigned row 8, and the occupied row 8 points back to a
listed file with suffix 7. -/
theorem c4_fallback_by_suffix_witness :
    ("xl/media/image7.png" ∈ ["xl/media/image7.png"] ∧
      ∃ n, findImageNum "xl/media/image7.png" = some n ∧ 8 = n + 1) ∧
    (∃ g, archive_images emptyPos ["xl/media/image7.png"] 8 = some g ∧
      g ∈ ["xl/media/image7.png"] ∧ findImageNum g = some 7) :=
  ⟨c4_fallback_by_suffix.1 ["xl/media/image7.png"] 8 "xl/media/image7.png" rfl,
   c4_fallback_by_suffix.2 ["xl/media/image7.png"] "xl/media/image7.png" 7
     (List.mem_cons_self _ _) (by decide)⟩

/-! ## C3: snapshot triggering -/

theorem sched_fold_aux (l : List Bool) :
    ∀ (pos count : Nat) (snaps : List Nat),
      l.foldl sched_step (pos, count, snaps) =
        (pos + l.length, count + l.count true,
          snaps ++ (List.range l.length).filterMap (fun k =>
            if (count + ((l.take (k + 1)).count true)) % 10 = 0 then some (pos + k + 1)
            else none)) := by
  induction l with
  | nil => simp
  | cons b t ih =>
      intro pos count snaps
      rw [List.foldl_cons]
      have hstep : sched_step (pos, count, snaps) b =
          (pos + 1, (if b then count + 1 else count),
            (if (if b then count + 1 else count) % 10 = 0 then snaps ++ [pos + 1]
              else snaps)) := by
        cases b <;> rfl
      rw [hstep, ih]
      simp only [Prod.mk.injEq, List.length_cons]
      refine ⟨by omega, ?_, ?_⟩
      · cases b <;> (simp [List.count_cons]; try omega)
      · have hc0 : count + (((b :: t).take 1).count true) = if b then count + 1 else count := by
          cases b <;> simp [List.count_cons]
        have hfun : (fun k => if (count + (((b :: t).take (Nat.succ k + 1)).count true)) % 10 = 0
              then some (pos + Nat.succ k + 1) else none) =
            (fun k => if ((if b then count + 1 else count) +
                ((t.take (k + 1)).count true)) % 10 = 0
              then some (pos + 1 + k + 1) else none) := by
          funext k
          have h1 : ((b :: t).take (Nat.succ k + 1)).count true =
              ((t.take (k + 1)).count true) + (if b then 1 else 0) := by
            rw [List.take_succ_cons]
            cases b <;> simp [List.count_cons]
          rw [h1]
          have h2 : count + (((t.take (k + 1)).count true) + (if b then 1 else 0)) =
              (if b then count + 1 else count) + ((t.take (k + 1)).count true) := by
            cases b <;> (simp; try omega)
          rw [h2]
          have h3 : pos + Nat.succ k + 1 = pos + 1 + k + 1 := by omega
          rw [h3]
        rw [List.range_succ_eq_map, List.filterMap_cons, List.filterMap_map,
          Function.comp_def, hfun]
        have hcc : count + List.count true (List.take (0 + 1) (b :: t)) =
            (if b = true then count + 1 else count) := by
          cases b <;> simp [List.count_cons]
        rw [hcc]
        have hpos : pos + 0 + 1 = pos + 1 := by omega
        rw [hpos]
        by_cases hcond : (if b = true then count + 1 else count) % 10 = 0
        · rw [if_pos hcond, if_pos hcond]
          simp
        · rw [if_neg hcond, if_neg hcond]

/-- C3 (counterexample): with a single failing task the loop triggers a
snapshot at completion 1 (the success count is 0, and `0 % 10 == 0`),
and after ten successes a later failing completion triggers another
snapshot at position 11 — neither is a 10th successful completion, so
snapshots are not triggered exactly on every 10th success. -/
theorem c3_counterexample :
    mid_snapshots [false] = [1] ∧
    spec_mid_snapshots [false] = [] ∧
    mid_snapshots [true, true, true, true, true, true, true, true, true, true, false] =
      [10, 11] ∧
    spec_mid_snapshots
      [true, true, true, true, true, true, true, true, true, true, false] = [10] :=
  ⟨rfl, rfl, rfl, rfl⟩

/-- C3 (amended): during the completion loop a full snapshot write is
triggered at exactly those completions (successful or not) at which the
cumulative count of successful completions is divisible by 10 —
including every completion while that count is still 0 or stuck at a
multiple of 10 — and one more snapshot is written unconditionally at
the end of the run; the loop's success counter counts exactly the
successful completions. -/
theorem c3_snapshot_trigger (outcomes : List Bool) :
    mid_snapshots outcomes =
      (List.range outcomes.length).filterMap (fun k =>
        if ((outcomes.take (k + 1)).count true) % 10 = 0 then some (k + 1) else none) ∧
    all_snapshots outcomes = mid_snapshots outcomes ++ [outcomes.length + 1] ∧
    (process_file_run outcomes).2.1 = outcomes.count true := by
  have h := sched_fold_aux outcomes 0 0 []
  refine ⟨?_, rfl, ?_⟩
  · unfold mid_snapshots process_file_run
    rw [h]
    simp
  · unfold process_file_run
    rw [h]
    simp

/-! ## C2: retry and backoff -/

theorem firstSuccIdx_bounds (env : Nat → Attempt) :
    ∀ (r a i : Nat), firstSuccIdx env a r = some i → a ≤ i ∧ i < a + r := by
  intro r
  induction r with
  | zero =>
      intro a i h
      rw [firstSuccIdx] at h
      cases h
  | succ r ih =>
      intro a i h
      rw [firstSuccIdx] at h
      by_cases hs : (succContent (env a)).isSome
      · rw [if_pos hs] at h
        cases h
        omega
      · rw [if_neg hs] at h
        have := ih (a + 1) i h
        omega

theorem call_api_loop_spec (env : Nat → Attempt) (d : Nat) :
    ∀ (r a : Nat),
      call_api_loop env d a r =
        ⟨(firstSuccIdx env a r).bind (fun i => succContent (env i)),
          ((List.range' a (attemptsIn env a r)).filter
            (fun i => decide (env i = Attempt.transport) && decide (i + 1 < a + r))).map
            (fun i => d * (i + 1)),
          attemptsIn env a r⟩ := by
  intro r
  induction r with
  | zero =>
      intro a
      rw [call_api_loop]
      simp [firstSuccIdx, attemptsIn]
  | succ r ih =>
      intro a
      have harith : a + (r + 1) = a + 1 + r := by omega
      cases henv : env a with
      | transport =>
          have hsc : succContent (env a) = none := by rw [henv]; rfl
          have hfs : firstSuccIdx env a (r + 1) = firstSuccIdx env (a + 1) r := by
            rw [firstSuccIdx, hsc]
            simp
          have hA : attemptsIn env a (r + 1) = attemptsIn env (a + 1) r + 1 := by
            cases hfs2 : firstSuccIdx env (a + 1) r with
            | none => simp [attemptsIn, hfs, hfs2]
            | some i =>
                have hb := firstSuccIdx_bounds env r (a + 1) i hfs2
                simp [attemptsIn, hfs, hfs2]
                omega
          have hloop : call_api_loop env d a (r + 1) =
              ⟨(call_api_loop env d (a + 1) r).result,
                (if r = 0 then [] else [d * (a + 1)]) ++
                  (call_api_loop env d (a + 1) r).sleeps,
                (call_api_loop env d (a + 1) r).attemptsMade + 1⟩ := by
            rw [call_api_loop, henv]
          rw [hloop, ih (a + 1)]
          simp only [CallResult.mk.injEq]
          refine ⟨by rw [hfs], ?_, by omega⟩
          rw [hA, List.range'_succ, List.filter_cons]
          by_cases hr : 0 < r
          · rw [if_pos (show (decide (env a = Attempt.transport) &&
                decide (a + 1 < a + (r + 1))) = true from by simp [henv]; omega)]
            rw [if_neg (show ¬ r = 0 from by omega)]
            simp only [List.map_cons, harith]
            rfl
          · have hr0 : r = 0 := by omega
            rw [if_neg (show ¬ (decide (env a = Attempt.transport) &&
                decide (a + 1 < a + (r + 1))) = true from by simp [henv]; omega)]
            rw [if_pos hr0]
            simp only [List.nil_append, harith]
      | http s c =>
          by_cases hs200 : s = 200
          · subst hs200
            cases c with
            | some cc =>
                have hsc : succContent (env a) = some cc := by rw [henv]; rfl
                have hfs : firstSuccIdx env a (r + 1) = some a := by
                  rw [firstSuccIdx, if_pos (by rw [hsc]; rfl)]
                have hA : attemptsIn env a (r + 1) = 1 := by
                  simp [attemptsIn, hfs]
                have hloop : call_api_loop env d a (r + 1) = ⟨some cc, [], 1⟩ := by
                  rw [call_api_loop, henv]
                  simp
                rw [hloop, hfs, hA]
                simp only [CallResult.mk.injEq]
                refine ⟨by simp [Option.bind, hsc], ?_, trivial⟩
                rw [List.range'_succ]
                have hnil : List.range' (a + 1) 0 = [] := rfl
                rw [hnil, List.filter_cons]
                rw [if_neg (show ¬ (decide (env a = Attempt.transport) &&
                    decide (a + 1 < a + (r + 1))) = true from by simp [henv])]
                rfl
            | none =>
                have hsc : succContent (env a) = none := by rw [henv]; rfl
                have hfs : firstSuccIdx env a (r + 1) = firstSuccIdx env (a + 1) r := by
                  rw [firstSuccIdx, hsc]
                  simp
                have hA : attemptsIn env a (r + 1) = attemptsIn env (a + 1) r + 1 := by
                  cases hfs2 : firstSuccIdx env (a + 1) r with
                  | none => simp [attemptsIn, hfs, hfs2]
                  | some i =>
                      have hb := firstSuccIdx_bounds env r (a + 1) i hfs2
                      simp [attemptsIn, hfs, hfs2]
                      omega
                have hloop : call_api_loop env d a (r + 1) =
                    ⟨(call_api_loop env d (a + 1) r).result,
                      (call_api_loop env d (a + 1) r).sleeps,
                      (call_api_loop env d (a + 1) r).attemptsMade + 1⟩ := by
                  rw [call_api_loop, henv]
                  simp
                rw [hloop, ih (a + 1)]
                simp only [CallResult.mk.injEq]
                refine ⟨by rw [hfs], ?_, by omega⟩
                rw [hA, List.range'_succ, List.filter_cons]
                rw [if_neg (show ¬ (decide (env a = Attempt.transport) &&
                    decide (a + 1 < a + (r + 1))) = true from by simp [henv])]
                simp only [harith]
          · have hsc : succContent (env a) = none := by
              rw [henv]
              simp [succContent, hs200]
            have hfs : firstSuccIdx env a (r + 1) = firstSuccIdx env (a + 1) r := by
              rw [firstSuccIdx, hsc]
              simp
            have hA : attemptsIn env a (r + 1) = attemptsIn env (a + 1) r + 1 := by
              cases hfs2 : firstSuccIdx env (a + 1) r with
              | none => simp [attemptsIn, hfs, hfs2]
              | some i =>
                  have hb := firstSuccIdx_bounds env r (a + 1) i hfs2
                  simp [attemptsIn, hfs, hfs2]
                  omega
            have hloop : call_api_loop env d a (r + 1) =
                ⟨(call_api_loop env d (a + 1) r).result,
                  (call_api_loop env d (a + 1) r).sleeps,
                  (call_api_loop env d (a + 1) r).attemptsMade + 1⟩ := by
              rw [call_api_loop, henv]
              simp [hs200]
            rw [hloop, ih (a + 1)]
            simp only [CallResult.mk.injEq]
            refine ⟨by rw [hfs], ?_, by omega⟩
            rw [hA, List.range'_succ, List.filter_cons]
            rw [if_neg (show ¬ (decide (env a = Attempt.transport) &&
                decide (a + 1 < a + (r + 1))) = true from by simp [henv])]
            simp only [harith]


/-- C2 (counterexample): with `max_retries = 3` and an environment whose
first attempt yields a well-formed HTTP 500 response and whose second
yields 200 with content, the loop issues a second attempt and returns
its content — a non-2xx response is not "a single failed attempt with
no further attempts". -/
theorem c2_counterexample :
    (call_api (fun n => if n = 0 then Attempt.http 500 none
        else Attempt.http 200 (some "ok")) 3 2).attemptsMade = 2 ∧
    (call_api (fun n => if n = 0 then Attempt.http 500 none
        else Attempt.http 200 (some "ok")) 3 2).result = some "ok" ∧
    ¬ (∀ (env : Nat → Attempt) (m d s : Nat) (c : Option String),
        env 0 = Attempt.http s c → s ≠ 200 →
        (call_api env m d).attemptsMade ≤ 1) := by
  refine ⟨rfl, rfl, fun h => ?_⟩
  have := h (fun n => if n = 0 then Attempt.http 500 none
      else Attempt.http 200 (some "ok")) 3 2 500 none rfl (by decide)
  exact absurd this (by decide)

/-- C2 (amended): the loop issues at most `max_retries` requests,
stopping early only at the first attempt that returns HTTP 200 with
content (whose content it returns); transport failures and non-2xx
responses alike are followed by further attempts; and a backoff sleep of
`retry_delay * (attempt + 1)` (linearly increasing) occurs exactly after
each non-final transport failure — never after a non-2xx response. -/
theorem c2_retry_only_shapes_backoff (env : Nat → Attempt) (m d : Nat) :
    (call_api env m d).attemptsMade ≤ m ∧
    (call_api env m d).result =
      (firstSuccIdx env 0 m).bind (fun i => succContent (env i)) ∧
    (call_api env m d).attemptsMade =
      (match firstSuccIdx env 0 m with
        | some i => i + 1
        | none => m) ∧
    (call_api env m d).sleeps =
      ((List.range (call_api env m d).attemptsMade).filter
        (fun i => decide (env i = Attempt.transport) && decide (i + 1 < m))).map
        (fun i => d * (i + 1)) := by
  have h := call_api_loop_spec env d m 0
  have hA : attemptsIn env 0 m =
      (match firstSuccIdx env 0 m with
        | some i => i + 1
        | none => m) := by
    cases hfs : firstSuccIdx env 0 m with
    | none => simp [attemptsIn, hfs]
    | some i => simp [attemptsIn, hfs]
  have hle : attemptsIn env 0 m ≤ m := by
    cases hfs : firstSuccIdx env 0 m with
    | none => simp [attemptsIn, hfs]
    | some i =>
        have hb := firstSuccIdx_bounds env m 0 i hfs
        simp [attemptsIn, hfs]
        omega
  unfold call_api
  rw [h]
  refine ⟨by simpa using hle, rfl, hA, ?_⟩
  dsimp only
  rw [List.range_eq_range']
  simp

end AMP
